import Mathlib

/-!
Verification of the typed HTTP invocation layer of `cli/cliutils/cliutils.go`:
status-code acceptance (`isGoodCode`), the local-agent façade (`HorizonGet`,
`HorizonPutPost`, `HorizonDelete`), the registry façade (`ExchangeGet`,
`ExchangePutPost`, `ExchangeDelete`), and credential resolution
(`GetExchangeAuth`, `WithDefaultEnvVar`).

Modelling conventions:
- Byte slices and response bodies are modelled as `String`.
- The HTTP transport is a parameter: `Except String HttpResponse`, where
  `Except.error` stands for a failed `http.Get`/`client.Do` and
  `HttpResponse.bodyRead` stands for the result of reading the response body
  (`ioutil.ReadAll` can fail).
- Go's `encoding/json` calls are a parameter record `JsonLib`; theorems
  quantify over it or instantiate concrete libraries defined below.
- A call's result is an `Outcome`: a normal return, a process exit via
  `Fatal` (carrying the exit code), a returned error (the quiet path of
  `HorizonGet` carrying which failure produced it), or a Go runtime panic.
- Mutating calls also report the request they built (`none` = no request was
  ever constructed, as in the dry-run short circuit).
-/

namespace Cliutils

/-- Exit code for input-validation failures (`CLI_INPUT_ERROR = 1`). -/
def CLI_INPUT_ERROR : Nat := 1

/-- Exit code for JSON parse failures (`JSON_PARSING_ERROR = 3`). -/
def JSON_PARSING_ERROR : Nat := 3

/-- Exit code for HTTP-layer failures (`HTTP_ERROR = 5`). -/
def HTTP_ERROR : Nat := 5

/-- The fixed two-space indent used by `json.MarshalIndent` calls
(`JSON_INDENT = "  "`). -/
def JSON_INDENT : String := "  "

/-- The base64 alphabet of Go's `base64.StdEncoding`. -/
def base64Chars : List Char :=
  "ABCDEFGHIJKLMNOPQRSTUVWXYZabcdefghijklmnopqrstuvwxyz0123456789+/".toList

/-- Character for a 6-bit group. -/
def b64Char (n : Nat) : Char := base64Chars.getD n 'A'

/-- Standard base64 of a byte list (RFC 4648 with padding), bytes given as
`Nat`s below 256. -/
def base64EncodeNats : List Nat → List Char
  | [] => []
  | [a] => [b64Char (a / 4), b64Char (a % 4 * 16), '=', '=']
  | [a, b] => [b64Char (a / 4), b64Char (a % 4 * 16 + b / 16), b64Char (b % 16 * 4), '=']
  | a :: b :: c :: rest =>
    b64Char (a / 4) :: b64Char (a % 4 * 16 + b / 16) ::
      b64Char (b % 16 * 4 + c / 64) :: b64Char (c % 64) :: base64EncodeNats rest

/-- Model of Go's `base64.StdEncoding.EncodeToString([]byte(s))`. -/
def base64Encode (s : String) : String :=
  String.mk (base64EncodeNats (s.toUTF8.data.toList.map (fun b => b.toNat)))

instance {ε α : Type} [DecidableEq ε] [DecidableEq α] : DecidableEq (Except ε α) := fun a b =>
  match a, b with
  | .ok x, .ok y =>
    if h : x = y then isTrue (by rw [h]) else isFalse (fun hc => h (by cases hc; rfl))
  | .error x, .error y =>
    if h : x = y then isTrue (by rw [h]) else isFalse (fun hc => h (by cases hc; rfl))
  | .ok _, .error _ => isFalse (fun hc => Except.noConfusion hc)
  | .error _, .ok _ => isFalse (fun hc => Except.noConfusion hc)

/-- An HTTP response as the façades observe it: the status code and the
outcome of reading the body stream. -/
structure HttpResponse where
  statusCode : Int
  bodyRead : Except String String
deriving DecidableEq, Repr

/-- A request as constructed by the façades before sending. -/
structure Request where
  method : String
  url : String
  headers : List (String × String)
  body : String
deriving DecidableEq, Repr

/-- The caller's destination for a GET body, per the Go type switch on
`structure interface\x7b\x7d`: `nil`, `*string`, `*[]byte`, or any other
(typed struct) pointer. -/
inductive GetTarget where
  | nilT
  | stringT
  | bytesT
  | typedT
deriving DecidableEq, Repr

/-- The behaviour of Go's `encoding/json` on the payloads of one call:
`unmarshalTyped` is `json.Unmarshal` into the caller's struct,
`unmarshalAny` is `json.Unmarshal` into `interface\x7b\x7d` (the result
string standing for the parsed generic value), `marshalIndent` is
`json.MarshalIndent(v, "", indent)` applied to that value, and
`unmarshalDeviceResp` is `json.Unmarshal` into `exchange.PostDeviceResponse`. -/
structure JsonLib where
  unmarshalTyped : String → Except String Unit
  unmarshalAny : String → Except String String
  marshalIndent : String → String → Except String String
  unmarshalDeviceResp : String → Except String (String × String)

/-- Which failure a quiet-mode `HorizonGet` reported in its returned error. -/
inductive ErrKind where
  | transport
  | badCode
  | bodyRead
  | unmarshal
deriving DecidableEq, Repr

/-- What a GET wrote into the caller's `structure` argument. -/
inductive GetResult where
  | untouched
  | rawString (s : String)
  | rawBytes (s : String)
  | pretty (s : String)
  | typedOk
deriving DecidableEq, Repr

/-- Observable result of one façade call: normal return, process exit via
`Fatal exitCode`, an error returned to the caller (quiet `HorizonGet` only),
or a Go runtime panic. -/
inductive Outcome (ρ : Type) where
  | ok (code : Int) (result : ρ)
  | fatal (exitCode : Nat)
  | errReturn (kind : ErrKind)
  | panicked
deriving DecidableEq, Repr

/-- Model of `isGoodCode`: an empty list of good codes means anything is ok;
otherwise scan the list for the actual code. -/
def isGoodCode (actualHttpCode : Int) (goodHttpCodes : List Int) : Bool :=
  if goodHttpCodes.isEmpty then
    true
  else
    goodHttpCodes.any (fun code => code == actualHttpCode)

/-- Model of `GetRespBodyAsString`: read errors are ignored and yield the
empty string (`bytes.Buffer.ReadFrom` result is discarded). -/
def GetRespBodyAsString : Except String String → String
  | .ok s => s
  | .error _ => ""

/-- Model of `HorizonGet` (local-agent GET). Mirrors the source order:
transport failure (quiet → returned error, else `Fatal HTTP_ERROR`);
`isGoodCode` check (quiet → returned error, else `Fatal HTTP_ERROR`); then
the comparison `httpCode == goodHttpCodes[0]`, which on an empty slice is a
Go index-out-of-range panic; body read; then the type switch on the target:
`*string` receives the unprocessed body, anything else goes through
`json.Unmarshal`. -/
def HorizonGet (goodHttpCodes : List Int) (target : GetTarget) (quiet : Bool)
    (jl : JsonLib) (transport : Except String HttpResponse) : Outcome GetResult :=
  match transport with
  | .error _ =>
    if quiet then .errReturn .transport else .fatal HTTP_ERROR
  | .ok resp =>
    let httpCode := resp.statusCode
    if !isGoodCode httpCode goodHttpCodes then
      if quiet then .errReturn .badCode else .fatal HTTP_ERROR
    else
      match goodHttpCodes with
      | [] => .panicked
      | c0 :: _ =>
        if httpCode = c0 then
          match resp.bodyRead with
          | .error _ =>
            if quiet then .errReturn .bodyRead else .fatal HTTP_ERROR
          | .ok bodyBytes =>
            match target with
            | .stringT => .ok httpCode (.rawString bodyBytes)
            | _ =>
              match jl.unmarshalTyped bodyBytes with
              | .error _ =>
                if quiet then .errReturn .unmarshal else .fatal JSON_PARSING_ERROR
              | .ok _ => .ok httpCode .typedOk
        else
          .ok httpCode .untouched

/-- A PUT/POST body, per the Go type switch on `body interface\x7b\x7d`:
a byte slice, a string, or any other (structured) value carrying the result
of `json.Marshal` on it. -/
inductive ReqBody where
  | bytes (b : String)
  | str (s : String)
  | structured (marshal : Except String String)
deriving DecidableEq, Repr

/-- Body preparation of `HorizonPutPost`: byte slices AND strings are treated
like a file being uploaded (`bodyIsBytes = true`); anything else is
`json.Marshal`ed. Returns the wire bytes and the `bodyIsBytes` flag. -/
def prepareBody (body : ReqBody) : Except String (String × Bool) :=
  match body with
  | .bytes b => .ok (b, true)
  | .str s => .ok (s, true)
  | .structured m =>
    match m with
    | .error e => .error e
    | .ok jsonBytes => .ok (jsonBytes, false)

/-- Body preparation of `ExchangePutPost`: only byte slices set
`bodyIsBytes`; a string is converted to bytes but the flag stays false, so it
is sent with the JSON content type. -/
def prepareBodyExch (body : ReqBody) : Except String (String × Bool) :=
  match body with
  | .bytes b => .ok (b, true)
  | .str s => .ok (s, false)
  | .structured m =>
    match m with
    | .error e => .error e
    | .ok jsonBytes => .ok (jsonBytes, false)

/-- Model of `HorizonPutPost` (local-agent PUT/POST). Dry run returns
`(201, "")` before any request is constructed. Otherwise the body is
prepared (a marshal failure is `Fatal JSON_PARSING_ERROR` with no request),
the request gets `Accept` plus either `Content-Length` (byte/string bodies)
or `Content-Type: application/json`, and after the send the response body is
read with errors ignored; a code outside `goodHttpCodes` is
`Fatal HTTP_ERROR`. -/
def HorizonPutPost (isDryRun : Bool) (method urlBase urlSuffix : String)
    (goodHttpCodes : List Int) (body : ReqBody)
    (transport : Except String HttpResponse) : Outcome String × Option Request :=
  if isDryRun then
    (.ok 201 "", none)
  else
    match prepareBody body with
    | .error _ => (.fatal JSON_PARSING_ERROR, none)
    | .ok (jsonBytes, bodyIsBytes) =>
      let req : Request :=
        { method := method
          url := urlBase ++ "/" ++ urlSuffix
          headers := [("Accept", "application/json")] ++
            (if bodyIsBytes then [("Content-Length", toString jsonBytes.length)]
             else [("Content-Type", "application/json")])
          body := jsonBytes }
      let outcome : Outcome String :=
        match transport with
        | .error _ => .fatal HTTP_ERROR
        | .ok resp =>
          let httpCode := resp.statusCode
          let resp_body := GetRespBodyAsString resp.bodyRead
          if !isGoodCode httpCode goodHttpCodes then .fatal HTTP_ERROR
          else .ok httpCode resp_body
      (outcome, some req)

/-- Model of `HorizonDelete` (local-agent DELETE). Dry run returns `204`
before any request is constructed; otherwise a bare DELETE request is sent
and a code outside `goodHttpCodes` is `Fatal HTTP_ERROR`. -/
def HorizonDelete (isDryRun : Bool) (urlBase urlSuffix : String)
    (goodHttpCodes : List Int)
    (transport : Except String HttpResponse) : Outcome Unit × Option Request :=
  if isDryRun then
    (.ok 204 (), none)
  else
    let req : Request :=
      { method := "DELETE"
        url := urlBase ++ "/" ++ urlSuffix
        headers := []
        body := "" }
    let outcome : Outcome Unit :=
      match transport with
      | .error _ => .fatal HTTP_ERROR
      | .ok resp =>
        if !isGoodCode resp.statusCode goodHttpCodes then .fatal HTTP_ERROR
        else .ok resp.statusCode ()
    (outcome, some req)

/-- Model of `ExchangeGet` (registry GET). The request carries `Accept` and,
only when `credentials` is non-empty, `Authorization: Basic base64(creds)`.
The body is read before the status check (a read failure is fatal). A code
outside `goodHttpCodes` is `Fatal HTTP_ERROR`. When the (accepted) response
has a non-empty body and the target is not `nil`, the body is decoded:
`*[]byte` gets the raw bytes, `*string` gets the generic unmarshal /
re-marshal with the fixed `JSON_INDENT`, anything else a typed unmarshal;
JSON failures are `Fatal JSON_PARSING_ERROR`. -/
def ExchangeGet (urlBase urlSuffix credentials : String) (goodHttpCodes : List Int)
    (target : GetTarget) (jl : JsonLib)
    (transport : Except String HttpResponse) : Outcome GetResult × Request :=
  let req : Request :=
    { method := "GET"
      url := urlBase ++ "/" ++ urlSuffix
      headers := [("Accept", "application/json")] ++
        (if credentials ≠ "" then
          [("Authorization", "Basic " ++ base64Encode credentials)]
         else [])
      body := "" }
  let outcome : Outcome GetResult :=
    match transport with
    | .error _ => .fatal HTTP_ERROR
    | .ok resp =>
      match resp.bodyRead with
      | .error _ => .fatal HTTP_ERROR
      | .ok bodyBytes =>
        let httpCode := resp.statusCode
        if !isGoodCode httpCode goodHttpCodes then .fatal HTTP_ERROR
        else if bodyBytes.length > 0 && target != GetTarget.nilT then
          match target with
          | .bytesT => .ok httpCode (.rawBytes bodyBytes)
          | .stringT =>
            match jl.unmarshalAny bodyBytes with
            | .error _ => .fatal JSON_PARSING_ERROR
            | .ok jsonStruct =>
              match jl.marshalIndent JSON_INDENT jsonStruct with
              | .error _ => .fatal JSON_PARSING_ERROR
              | .ok jsonBytes => .ok httpCode (.pretty jsonBytes)
          | _ =>
            match jl.unmarshalTyped bodyBytes with
            | .error _ => .fatal JSON_PARSING_ERROR
            | .ok _ => .ok httpCode .typedOk
        else .ok httpCode .untouched
  (outcome, req)

/-- Model of `ExchangePutPost` (registry PUT/POST). Dry run returns `201`
before any request is constructed. The request carries `Accept`, either
`Content-Length` (byte bodies only, per `prepareBodyExch`) or
`Content-Type: application/json`, and — only when `credentials` is non-empty —
the Basic Authorization header. On a bad status code the body is read and a
parse into the `\x7bcode, msg\x7d` error shape is attempted purely to choose
the message: every branch is `Fatal HTTP_ERROR`. -/
def ExchangePutPost (isDryRun : Bool) (method urlBase urlSuffix credentials : String)
    (goodHttpCodes : List Int) (body : ReqBody) (jl : JsonLib)
    (transport : Except String HttpResponse) : Outcome Unit × Option Request :=
  if isDryRun then
    (.ok 201 (), none)
  else
    match prepareBodyExch body with
    | .error _ => (.fatal JSON_PARSING_ERROR, none)
    | .ok (jsonBytes, bodyIsBytes) =>
      let req : Request :=
        { method := method
          url := urlBase ++ "/" ++ urlSuffix
          headers := [("Accept", "application/json")] ++
            (if bodyIsBytes then [("Content-Length", toString jsonBytes.length)]
             else [("Content-Type", "application/json")]) ++
            (if credentials ≠ "" then
              [("Authorization", "Basic " ++ base64Encode credentials)]
             else [])
          body := jsonBytes }
      let outcome : Outcome Unit :=
        match transport with
        | .error _ => .fatal HTTP_ERROR
        | .ok resp =>
          let httpCode := resp.statusCode
          if !isGoodCode httpCode goodHttpCodes then
            match resp.bodyRead with
            | .error _ => .fatal HTTP_ERROR
            | .ok bodyBytes =>
              match jl.unmarshalDeviceResp bodyBytes with
              | .error _ => .fatal HTTP_ERROR
              | .ok _ => .fatal HTTP_ERROR
          else .ok httpCode ()
      (outcome, some req)

/-- Model of `ExchangeDelete` (registry DELETE). Dry run returns `204`
before any request is constructed. NOTE: unlike `ExchangeGet` and
`ExchangePutPost`, the source adds the Basic Authorization header
unconditionally, so an empty credentials string still yields
`Authorization: Basic ` followed by `base64("")`. A code outside
`goodHttpCodes` is `Fatal HTTP_ERROR`. -/
def ExchangeDelete (isDryRun : Bool) (urlBase urlSuffix credentials : String)
    (goodHttpCodes : List Int)
    (transport : Except String HttpResponse) : Outcome Unit × Option Request :=
  if isDryRun then
    (.ok 204 (), none)
  else
    let req : Request :=
      { method := "DELETE"
        url := urlBase ++ "/" ++ urlSuffix
        headers := [("Authorization", "Basic " ++ base64Encode credentials)]
        body := "" }
    let outcome : Outcome Unit :=
      match transport with
      | .error _ => .fatal HTTP_ERROR
      | .ok resp =>
        if !isGoodCode resp.statusCode goodHttpCodes then .fatal HTTP_ERROR
        else .ok resp.statusCode ()
    (outcome, some req)

/-- Model of `WithDefaultEnvVar`: the flag if non-blank, else the env var
value if non-blank, else the (blank) flag. The environment is a function
from variable names to values, with `""` for unset. -/
def WithDefaultEnvVar (env : String → String) (flag : String)
    (envVarName : String) : String :=
  if flag ≠ "" then flag
  else
    let newFlag := env envVarName
    if newFlag ≠ "" then newFlag
    else flag

/-- Result of credential resolution: a credential string, or a `Fatal` exit
with the given code. -/
inductive AuthResult where
  | cred (s : String)
  | fatalExit (exitCode : Nat)
deriving DecidableEq, Repr

/-- Model of `GetExchangeAuth`: use `userPw` if non-empty, else `nodeIdTok`,
else `HZN_EXCHANGE_USER_AUTH`, else `HZN_EXCHANGE_NODE_AUTH`; if all are
empty, `Fatal CLI_INPUT_ERROR`. -/
def GetExchangeAuth (env : String → String) (userPw nodeIdTok : String) : AuthResult :=
  let credToUse :=
    if userPw ≠ "" then userPw
    else
      if nodeIdTok ≠ "" then nodeIdTok
      else
        let tmpU := WithDefaultEnvVar env userPw "HZN_EXCHANGE_USER_AUTH"
        if tmpU ≠ "" then tmpU
        else
          let tmpN := WithDefaultEnvVar env nodeIdTok "HZN_EXCHANGE_NODE_AUTH"
          if tmpN ≠ "" then tmpN
          else ""
  if credToUse = "" then .fatalExit CLI_INPUT_ERROR
  else .cred credToUse

/-- A JSON library under which every payload parses and the generic
re-marshal returns the parsed value unchanged; used to exercise success
paths at concrete inputs. -/
def jlAllOk : JsonLib :=
  { unmarshalTyped := fun _ => .ok ()
    unmarshalAny := fun s => .ok s
    marshalIndent := fun _ s => .ok s
    unmarshalDeviceResp := fun _ => .ok ("", "") }

/-- A JSON library under which no payload parses (as Go's `encoding/json`
behaves on input that is not valid JSON, such as `not json`); used to
exercise parse-failure paths at concrete inputs. -/
def jlReject : JsonLib :=
  { unmarshalTyped := fun _ => .error "invalid character"
    unmarshalAny := fun _ => .error "invalid character"
    marshalIndent := fun _ _ => .error "invalid"
    unmarshalDeviceResp := fun _ => .error "invalid character" }

/-- A JSON library failing exactly on the empty input, mirroring the fact
that Go's `json.Unmarshal` of zero bytes returns
`unexpected end of JSON input`. -/
def jlGoEmpty : JsonLib :=
  { unmarshalTyped := fun s =>
      if s = "" then .error "unexpected end of JSON input" else .ok ()
    unmarshalAny := fun s =>
      if s = "" then .error "unexpected end of JSON input" else .ok s
    marshalIndent := fun _ s => .ok s
    unmarshalDeviceResp := fun s =>
      if s = "" then .error "unexpected end of JSON input" else .ok ("", "") }

/-- Helper: on a non-empty list, `isGoodCode` is membership. -/
theorem isGoodCode_mem_iff (c : Int) (l : List Int) (hne : l ≠ []) :
    isGoodCode c l = true ↔ c ∈ l := by
  simp [isGoodCode, hne, List.any_eq_true]

/-- C10: the status acceptance check `isGoodCode` returns true for every code
when the acceptable list is empty; on a non-empty list it returns true
exactly when the observed code occurs anywhere in the list; and its result is
invariant under permutation of the list. (It is a pure function, so it has no
side effects.) -/
theorem isGoodCode_accept_spec (c : Int) (l l' : List Int)
    (hne : l ≠ []) (hperm : l.Perm l') :
    isGoodCode c [] = true ∧
    (isGoodCode c l = true ↔ c ∈ l) ∧
    isGoodCode c l = isGoodCode c l' := by
  have hne2 : l' ≠ [] := fun h => hne (List.Perm.eq_nil (h ▸ hperm))
  have t1 := isGoodCode_mem_iff c l hne
  have t2 := isGoodCode_mem_iff c l' hne2
  refine ⟨rfl, t1, ?_⟩
  by_cases hc : c ∈ l
  · rw [t1.mpr hc, t2.mpr (hperm.mem_iff.mp hc)]
  · have e1 : isGoodCode c l = false :=
      Bool.eq_false_iff.mpr (fun h => hc (t1.mp h))
    have e2 : isGoodCode c l' = false :=
      Bool.eq_false_iff.mpr (fun h => hc (hperm.mem_iff.mpr (t2.mp h)))
    rw [e1, e2]

/-- Witness for C10 at concrete inputs. -/
theorem isGoodCode_accept_spec_witness :
    isGoodCode 200 [] = true ∧
    (isGoodCode 200 [200, 404] = true ↔ (200 : Int) ∈ [200, 404]) ∧
    isGoodCode 200 [200, 404] = isGoodCode 200 [404, 200] :=
  isGoodCode_accept_spec 200 [200, 404] [404, 200] (by decide) (by decide)

/-- C2: with the dry-run flag set, every mutating call returns its synthetic
success immediately — `(201, "")` for local-agent PUT/POST, `201` for
registry PUT/POST, `204` for both DELETEs — and no request is ever
constructed (the result is independent of the transport, so no network I/O
occurs). -/
theorem dry_run_short_circuit (method urlBase urlSuffix credentials : String)
    (codes : List Int) (body : ReqBody) (jl : JsonLib)
    (t : Except String HttpResponse) :
    HorizonPutPost true method urlBase urlSuffix codes body t = (.ok 201 "", none) ∧
    ExchangePutPost true method urlBase urlSuffix credentials codes body jl t = (.ok 201 (), none) ∧
    HorizonDelete true urlBase urlSuffix codes t = (.ok 204 (), none) ∧
    ExchangeDelete true urlBase urlSuffix credentials codes t = (.ok 204 (), none) :=
  ⟨rfl, rfl, rfl, rfl⟩

/-- C4 (code bug): a local-agent GET with an empty acceptable-codes list
passes the wildcard `isGoodCode` check but then evaluates
`goodHttpCodes[0]`, a Go index-out-of-range panic, for every response —
instead of completing normally with the observed code as the wildcard
contract promises. -/
theorem horizonGet_empty_codes_panics (target : GetTarget) (quiet : Bool)
    (jl : JsonLib) (resp : HttpResponse) :
    HorizonGet [] target quiet jl (.ok resp) = .panicked := rfl

/-- C9: credential resolution takes the first non-empty value among the
explicit user/password argument, the explicit node-identity/token argument,
`HZN_EXCHANGE_USER_AUTH`, and `HZN_EXCHANGE_NODE_AUTH`, in that order, and
exits fatally with the input-error code when all four are empty. -/
theorem getExchangeAuth_precedence (env : String → String) (userPw nodeIdTok : String) :
    GetExchangeAuth env userPw nodeIdTok =
      (if userPw ≠ "" then .cred userPw
       else if nodeIdTok ≠ "" then .cred nodeIdTok
       else if env "HZN_EXCHANGE_USER_AUTH" ≠ "" then .cred (env "HZN_EXCHANGE_USER_AUTH")
       else if env "HZN_EXCHANGE_NODE_AUTH" ≠ "" then .cred (env "HZN_EXCHANGE_NODE_AUTH")
       else .fatalExit CLI_INPUT_ERROR) := by
  unfold GetExchangeAuth WithDefaultEnvVar
  by_cases h1 : userPw = "" <;> by_cases h2 : nodeIdTok = "" <;>
    by_cases h3 : env "HZN_EXCHANGE_USER_AUTH" = "" <;>
    by_cases h4 : env "HZN_EXCHANGE_NODE_AUTH" = "" <;>
    simp [h1, h2, h3, h4]

/-- The Authorization headers of a request. -/
def authHeaders (r : Request) : List (String × String) :=
  r.headers.filter (fun h => h.1 == "Authorization")

/-- The body-encoding headers (Content-Length / Content-Type) of a request. -/
def contentHeaders (r : Request) : List (String × String) :=
  r.headers.filter (fun h => h.1 == "Content-Length" || h.1 == "Content-Type")

/-- C3 (amended): registry GET and PUT/POST attach
`Authorization: Basic base64(credentials)` exactly when the credentials
string is non-empty; registry DELETE attaches the header unconditionally,
with `base64` of the empty string when the credentials are empty. -/
theorem exchange_auth_header_policy (urlBase urlSuffix credentials method b : String)
    (codes : List Int) (target : GetTarget) (jl : JsonLib)
    (t : Except String HttpResponse) :
    authHeaders (ExchangeGet urlBase urlSuffix credentials codes target jl t).2 =
      (if credentials ≠ "" then
        [("Authorization", "Basic " ++ base64Encode credentials)] else []) ∧
    (ExchangePutPost false method urlBase urlSuffix credentials codes (.bytes b) jl t).2.map authHeaders =
      some (if credentials ≠ "" then
        [("Authorization", "Basic " ++ base64Encode credentials)] else []) ∧
    (ExchangeDelete false urlBase urlSuffix credentials codes t).2.map authHeaders =
      some [("Authorization", "Basic " ++ base64Encode credentials)] := by
  by_cases hc : credentials = "" <;>
    simp [ExchangeGet, ExchangePutPost, ExchangeDelete, prepareBodyExch,
      authHeaders, hc, List.filter]

/-- Counterexample to C3 as stated: a registry DELETE with an empty
credentials string still carries an Authorization header (whose value is
`Basic ` followed by the base64 of the empty string, which is empty). -/
theorem exchangeDelete_empty_credentials_counterexample :
    (ExchangeDelete false "http://exch" "orgs/o/nodes/n" "" [204]
        (.ok ⟨204, .ok ""⟩)).2.map Request.headers =
      some [("Authorization", "Basic " ++ base64Encode "")] ∧
    base64Encode "" = "" := ⟨rfl, by decide⟩

/-- C5 (amended): on the local-agent PUT/POST, byte and string bodies pass
through unencoded with a `Content-Length` header and structured bodies are
JSON-marshaled with a `Content-Type: application/json` header; on the
registry PUT/POST only byte bodies get `Content-Length`, while a string body
still passes through unencoded but gets `Content-Type: application/json`. -/
theorem putPost_body_header_policy (method urlBase urlSuffix credentials b s j : String)
    (codes : List Int) (jl : JsonLib) (t : Except String HttpResponse) :
    (HorizonPutPost false method urlBase urlSuffix codes (.bytes b) t).2.map
        (fun r => (r.body, contentHeaders r)) =
      some (b, [("Content-Length", toString b.length)]) ∧
    (HorizonPutPost false method urlBase urlSuffix codes (.str s) t).2.map
        (fun r => (r.body, contentHeaders r)) =
      some (s, [("Content-Length", toString s.length)]) ∧
    (HorizonPutPost false method urlBase urlSuffix codes (.structured (.ok j)) t).2.map
        (fun r => (r.body, contentHeaders r)) =
      some (j, [("Content-Type", "application/json")]) ∧
    (ExchangePutPost false method urlBase urlSuffix credentials codes (.bytes b) jl t).2.map
        (fun r => (r.body, contentHeaders r)) =
      some (b, [("Content-Length", toString b.length)]) ∧
    (ExchangePutPost false method urlBase urlSuffix credentials codes (.str s) jl t).2.map
        (fun r => (r.body, contentHeaders r)) =
      some (s, [("Content-Type", "application/json")]) ∧
    (ExchangePutPost false method urlBase urlSuffix credentials codes (.structured (.ok j)) jl t).2.map
        (fun r => (r.body, contentHeaders r)) =
      some (j, [("Content-Type", "application/json")]) := by
  by_cases hc : credentials = "" <;>
    simp [HorizonPutPost, ExchangePutPost, prepareBody, prepareBodyExch,
      contentHeaders, hc, List.filter]

/-- Counterexample to C5 as stated: a registry PUT with a string body passes
the string through unencoded but carries `Content-Type: application/json`,
not `Content-Length`. -/
theorem exchangePutPost_string_body_counterexample :
    (ExchangePutPost false "PUT" "http://exch" "orgs/o/nodes/n" "u:p" [201]
        (.str "file contents") jlAllOk (.ok ⟨201, .ok ""⟩)).2.map Request.headers =
      some [("Accept", "application/json"), ("Content-Type", "application/json"),
            ("Authorization", "Basic " ++ base64Encode "u:p")] ∧
    (ExchangePutPost false "PUT" "http://exch" "orgs/o/nodes/n" "u:p" [201]
        (.str "file contents") jlAllOk (.ok ⟨201, .ok ""⟩)).2.map Request.body =
      some "file contents" := ⟨rfl, rfl⟩

/-- C1 (amended): on a local-agent GET, a code in the acceptable list other
than its first element returns the code alone with the target untouched; on
a registry GET, a non-empty body on ANY acceptable code — also a secondary
one — is decoded into the target (so a body that fails to parse is fatal
even on a secondary code). -/
theorem get_decode_only_first_code
    (c0 : Int) (rest : List Int) (target : GetTarget) (quiet : Bool) (jl : JsonLib)
    (urlBase urlSuffix creds body : String) (resp : HttpResponse)
    (hmem : isGoodCode resp.statusCode (c0 :: rest) = true)
    (hne : resp.statusCode ≠ c0) :
    HorizonGet (c0 :: rest) target quiet jl (.ok resp) = .ok resp.statusCode .untouched ∧
    (0 < body.length →
      (ExchangeGet urlBase urlSuffix creds (c0 :: rest) .typedT jl
          (.ok ⟨resp.statusCode, .ok body⟩)).1 =
        (match jl.unmarshalTyped body with
         | .error _ => .fatal JSON_PARSING_ERROR
         | .ok _ => .ok resp.statusCode .typedOk)) := by
  constructor
  · simp [HorizonGet, hmem, hne]
  · intro hbody
    simp [ExchangeGet, hmem, hbody]

/-- Witness for C1 at concrete inputs: code 404 against acceptable
`[200, 404]`. -/
theorem get_decode_only_first_code_witness :
    HorizonGet [200, 404] .typedT false jlReject (.ok ⟨404, .ok "not json"⟩) =
      .ok 404 .untouched ∧
    (ExchangeGet "http://exch" "orgs/o/services/s" "u:p" [200, 404] .typedT jlReject
        (.ok ⟨404, .ok "not json"⟩)).1 = .fatal JSON_PARSING_ERROR := by
  have h := get_decode_only_first_code 200 [404] .typedT false jlReject
    "http://exch" "orgs/o/services/s" "u:p" "not json" ⟨404, .ok "not json"⟩
    (by decide) (by decide)
  exact ⟨h.1, h.2 (by decide)⟩

/-- Counterexample to C1 as stated: a registry GET with acceptable codes
`[200, 404]`, an observed 404, and a non-empty body that does not match the
target shape dies with a JSON-parse fatal exit — the body IS decoded on a
secondary acceptable code. -/
theorem exchangeGet_decodes_secondary_code :
    (ExchangeGet "http://exch" "orgs/o/patterns/p" "u:p" [200, 404] .typedT jlReject
        (.ok ⟨404, .ok "plain text, not the target shape"⟩)).1 =
      .fatal JSON_PARSING_ERROR := rfl

/-- C6 (amended): on a registry GET with the string (pretty-printed) target,
a decoded body is unmarshaled as generic JSON and re-marshaled with the
fixed two-space `JSON_INDENT` — the result is the re-serialization — and a
body that is not valid JSON is a JSON-parse fatal exit; the local-agent GET
with a string target instead returns the raw body unprocessed, never
consulting the JSON decoder. -/
theorem get_pretty_string_policy
    (urlBase urlSuffix creds body v js : String) (codes : List Int) (jl : JsonLib)
    (code c0 : Int) (rest : List Int) (quiet : Bool)
    (hgood : isGoodCode code codes = true) (hbody : 0 < body.length) :
    (jl.unmarshalAny body = .ok v → jl.marshalIndent JSON_INDENT v = .ok js →
      (ExchangeGet urlBase urlSuffix creds codes .stringT jl
          (.ok ⟨code, .ok body⟩)).1 = .ok code (.pretty js)) ∧
    (∀ e, jl.unmarshalAny body = .error e →
      (ExchangeGet urlBase urlSuffix creds codes .stringT jl
          (.ok ⟨code, .ok body⟩)).1 = .fatal JSON_PARSING_ERROR) ∧
    HorizonGet (c0 :: rest) .stringT quiet jl (.ok ⟨c0, .ok body⟩) =
      .ok c0 (.rawString body) := by
  have hg0 : isGoodCode c0 (c0 :: rest) = true :=
    (isGoodCode_mem_iff c0 (c0 :: rest) (by simp)).mpr (List.mem_cons_self c0 rest)
  refine ⟨?_, ?_, ?_⟩
  · intro h1 h2
    simp [ExchangeGet, hgood, hbody, h1, h2]
  · intro e h1
    simp [ExchangeGet, hgood, hbody, h1]
  · simp [HorizonGet, hg0]

/-- Witness for C6 at concrete inputs, using a library that parses the body
and one that rejects it. -/
theorem get_pretty_string_policy_witness :
    (ExchangeGet "http://exch" "orgs" "u:p" [200] .stringT jlAllOk
        (.ok ⟨200, .ok "[1, 2]"⟩)).1 = .ok 200 (.pretty "[1, 2]") ∧
    (ExchangeGet "http://exch" "orgs" "u:p" [200] .stringT jlReject
        (.ok ⟨200, .ok "not json"⟩)).1 = .fatal JSON_PARSING_ERROR ∧
    HorizonGet [200] .stringT false jlAllOk (.ok ⟨200, .ok "not json"⟩) =
      .ok 200 (.rawString "not json") := by
  refine ⟨?_, ?_, ?_⟩
  · exact (get_pretty_string_policy "http://exch" "orgs" "u:p" "[1, 2]" "[1, 2]"
      "[1, 2]" [200] jlAllOk 200 200 [] false (by decide) (by decide)).1 rfl rfl
  · exact (get_pretty_string_policy "http://exch" "orgs" "u:p" "not json" ""
      "" [200] jlReject 200 200 [] false (by decide) (by decide)).2.1
      "invalid character" rfl
  · exact (get_pretty_string_policy "http://exch" "orgs" "u:p" "not json" ""
      "" [200] jlAllOk 200 200 [] false (by decide) (by decide)).2.2

/-- Counterexample to C6 as stated: a local-agent GET with a string target
and a body that is not valid JSON returns the raw body with no JSON-parse
failure (under a JSON library rejecting every payload, the call still
succeeds, because this path never parses). -/
theorem horizonGet_string_target_returns_raw_body :
    HorizonGet [200] .stringT false jlReject (.ok ⟨200, .ok "oops not json"⟩) =
      .ok 200 (.rawString "oops not json") := rfl

/-- C7 (amended): a registry GET with an empty body skips the decode step
for every target and returns the observed code with the target untouched;
the local-agent GET instead always unmarshals when the code equals the first
acceptable code, so with a typed target an empty body is a JSON-parse fatal
exit (Go's `json.Unmarshal` fails on zero bytes). -/
theorem get_empty_body_policy
    (urlBase urlSuffix creds : String) (codes : List Int) (target : GetTarget)
    (jl : JsonLib) (code c0 : Int) (rest : List Int)
    (hgood : isGoodCode code codes = true) :
    (ExchangeGet urlBase urlSuffix creds codes target jl
        (.ok ⟨code, .ok ""⟩)).1 = .ok code .untouched ∧
    (∀ e, jl.unmarshalTyped "" = .error e →
      HorizonGet (c0 :: rest) .typedT false jl (.ok ⟨c0, .ok ""⟩) =
        .fatal JSON_PARSING_ERROR) := by
  have hg0 : isGoodCode c0 (c0 :: rest) = true :=
    (isGoodCode_mem_iff c0 (c0 :: rest) (by simp)).mpr (List.mem_cons_self c0 rest)
  constructor
  · simp [ExchangeGet, hgood]
  · intro e h1
    simp [HorizonGet, hg0, h1]

/-- Witness for C7 at concrete inputs with the Go-like library that fails
exactly on empty input. -/
theorem get_empty_body_policy_witness :
    (ExchangeGet "http://exch" "orgs" "u:p" [200] .typedT jlGoEmpty
        (.ok ⟨200, .ok ""⟩)).1 = .ok 200 .untouched ∧
    HorizonGet [200] .typedT false jlGoEmpty (.ok ⟨200, .ok ""⟩) =
      .fatal JSON_PARSING_ERROR := by
  have h := get_empty_body_policy "http://exch" "orgs" "u:p" [200] .typedT
    jlGoEmpty 200 200 [] (by decide)
  exact ⟨h.1, h.2 "unexpected end of JSON input" rfl⟩

/-- Counterexample to C7 as stated: a local-agent GET into a typed target
whose accepted response (first acceptable code) has an empty body raises a
JSON-parse fatal exit instead of returning a zero value. -/
theorem horizonGet_empty_body_typed_fails :
    HorizonGet [200, 404] .typedT false jlGoEmpty (.ok ⟨200, .ok ""⟩) =
      .fatal JSON_PARSING_ERROR := rfl

/-- Helper: a quiet local-agent GET never exits the process via `Fatal`. -/
theorem horizonGet_quiet_no_fatal (codes : List Int) (target : GetTarget)
    (jl : JsonLib) (t : Except String HttpResponse) (ec : Nat) :
    HorizonGet codes target true jl t ≠ .fatal ec := by
  simp only [HorizonGet]
  repeat' split
  all_goals simp_all

/-- Helper: a non-quiet local-agent GET never returns an error. -/
theorem horizonGet_nonquiet_no_errReturn (codes : List Int) (target : GetTarget)
    (jl : JsonLib) (t : Except String HttpResponse) (k : ErrKind) :
    HorizonGet codes target false jl t ≠ .errReturn k := by
  simp only [HorizonGet]
  repeat' split
  all_goals simp_all

/-- Helper: local-agent PUT/POST never returns an error. -/
theorem horizonPutPost_no_errReturn (isDryRun : Bool) (method urlBase urlSuffix : String)
    (codes : List Int) (rbody : ReqBody) (t : Except String HttpResponse) (k : ErrKind) :
    (HorizonPutPost isDryRun method urlBase urlSuffix codes rbody t).1 ≠ .errReturn k := by
  simp only [HorizonPutPost]
  repeat' split
  all_goals simp

/-- Helper: local-agent DELETE never returns an error. -/
theorem horizonDelete_no_errReturn (isDryRun : Bool) (urlBase urlSuffix : String)
    (codes : List Int) (t : Except String HttpResponse) (k : ErrKind) :
    (HorizonDelete isDryRun urlBase urlSuffix codes t).1 ≠ .errReturn k := by
  simp only [HorizonDelete]
  repeat' split
  all_goals simp

/-- Helper: registry GET never returns an error. -/
theorem exchangeGet_no_errReturn (urlBase urlSuffix credentials : String)
    (codes : List Int) (target : GetTarget) (jl : JsonLib)
    (t : Except String HttpResponse) (k : ErrKind) :
    (ExchangeGet urlBase urlSuffix credentials codes target jl t).1 ≠ .errReturn k := by
  simp only [ExchangeGet]
  repeat' split
  all_goals simp

/-- Helper: registry PUT/POST never returns an error. -/
theorem exchangePutPost_no_errReturn (isDryRun : Bool)
    (method urlBase urlSuffix credentials : String) (codes : List Int)
    (rbody : ReqBody) (jl : JsonLib) (t : Except String HttpResponse) (k : ErrKind) :
    (ExchangePutPost isDryRun method urlBase urlSuffix credentials codes rbody jl t).1 ≠
      .errReturn k := by
  simp only [ExchangePutPost]
  repeat' split
  all_goals simp

/-- Helper: registry DELETE never returns an error. -/
theorem exchangeDelete_no_errReturn (isDryRun : Bool)
    (urlBase urlSuffix credentials : String) (codes : List Int)
    (t : Except String HttpResponse) (k : ErrKind) :
    (ExchangeDelete isDryRun urlBase urlSuffix credentials codes t).1 ≠ .errReturn k := by
  simp only [ExchangeDelete]
  repeat' split
  all_goals simp

/-- C8: the quiet mode of the local-agent GET is the only error-returning
path. With quiet set, each failure — transport, status outside a non-empty
acceptable list, body read, unmarshal — yields a returned error of that
kind, and the quiet call never exits via `Fatal`; without quiet it never
returns an error; and no other operation of either façade ever returns an
error. -/
theorem horizonGet_quiet_error_policy
    (codes : List Int) (c0 : Int) (rest : List Int) (target : GetTarget)
    (jl : JsonLib) (resp : HttpResponse) (e msg body : String)
    (t : Except String HttpResponse) (isDryRun : Bool)
    (method urlBase urlSuffix credentials : String) (rbody : ReqBody) :
    HorizonGet codes target true jl (.error e) = .errReturn .transport ∧
    (isGoodCode resp.statusCode (c0 :: rest) = false →
      HorizonGet (c0 :: rest) target true jl (.ok resp) = .errReturn .badCode) ∧
    HorizonGet (c0 :: rest) target true jl (.ok ⟨c0, .error msg⟩) = .errReturn .bodyRead ∧
    (∀ e2, jl.unmarshalTyped body = .error e2 →
      HorizonGet (c0 :: rest) .typedT true jl (.ok ⟨c0, .ok body⟩) = .errReturn .unmarshal) ∧
    (∀ ec, HorizonGet codes target true jl t ≠ .fatal ec) ∧
    (∀ k, HorizonGet codes target false jl t ≠ .errReturn k) ∧
    (∀ k, (HorizonPutPost isDryRun method urlBase urlSuffix codes rbody t).1 ≠ .errReturn k) ∧
    (∀ k, (HorizonDelete isDryRun urlBase urlSuffix codes t).1 ≠ .errReturn k) ∧
    (∀ k, (ExchangeGet urlBase urlSuffix credentials codes target jl t).1 ≠ .errReturn k) ∧
    (∀ k, (ExchangePutPost isDryRun method urlBase urlSuffix credentials codes rbody jl t).1 ≠ .errReturn k) ∧
    (∀ k, (ExchangeDelete isDryRun urlBase urlSuffix credentials codes t).1 ≠ .errReturn k) := by
  have hg0 : isGoodCode c0 (c0 :: rest) = true :=
    (isGoodCode_mem_iff c0 (c0 :: rest) (by simp)).mpr (List.mem_cons_self c0 rest)
  refine ⟨rfl, ?_, ?_, ?_, horizonGet_quiet_no_fatal codes target jl t,
    horizonGet_nonquiet_no_errReturn codes target jl t,
    horizonPutPost_no_errReturn isDryRun method urlBase urlSuffix codes rbody t,
    horizonDelete_no_errReturn isDryRun urlBase urlSuffix codes t,
    exchangeGet_no_errReturn urlBase urlSuffix credentials codes target jl t,
    exchangePutPost_no_errReturn isDryRun method urlBase urlSuffix credentials codes rbody jl t,
    exchangeDelete_no_errReturn isDryRun urlBase urlSuffix credentials codes t⟩
  · intro h
    simp [HorizonGet, h]
  · simp [HorizonGet, hg0]
  · intro e2 h
    simp [HorizonGet, hg0, h]

/-- Witness for C8 at concrete inputs: quiet mode turns a bad status code
and an unmarshal failure into returned errors. -/
theorem horizonGet_quiet_error_policy_witness :
    HorizonGet [200] .typedT true jlReject (.ok ⟨500, .ok ""⟩) = .errReturn .badCode ∧
    HorizonGet [200] .typedT true jlReject (.ok ⟨200, .ok "not json"⟩) = .errReturn .unmarshal := by
  have h := horizonGet_quiet_error_policy [200] 200 [] .typedT jlReject
    ⟨500, .ok ""⟩ "refused" "read failed" "not json" (.ok ⟨500, .ok ""⟩)
    false "PUT" "http://localhost" "status" "" (.bytes "")
  exact ⟨h.2.1 (by decide), h.2.2.2.1 "invalid character" rfl⟩

end Cliutils
